import Mathlib

/-!
Verification of the aggregation pipeline of `src/data/questions.py`.

The script loads three CSV tables (measurement, instrument status, pollutant
reference), normalizes them with pandas, and computes six metrics Q1..Q6.
This file is a shallow embedding of that pipeline:

* a raw CSV cell is modelled by `Cell` (missing / numeric / non-numeric text);
  `pd.to_numeric(·, errors="coerce")` is `Cell.toNum` (text and missing map to
  NaN, modelled as `none`), and `dropna` drops `missing` cells only;
* a raw date cell is modelled by `DCell`; `pd.to_datetime(·, errors="coerce")`
  is `DCell.toInstant` (unparseable text becomes NaT, modelled as `none`);
* timestamps are `Timestamp` records; `Fin 12` / `Fin 24` reflect that a
  parsed pandas datetime always has month 1..12 and hour 0..23;
* numeric values are `ℚ` (the float arithmetic of the source is modelled
  exactly on rationals; `round(x, 5)` is `round5`, with the half-way rule of
  binary floats abstracted to the rounding of `round : ℚ → ℤ`);
* dataframes are lists of rows, so that join multiplicity and row order are
  modelled exactly: `pd.merge(..., how="inner")` keeps the order of the left
  keys and produces one output row per matching (left, right) pair.
-/

/-- A raw CSV cell: empty (NaN after `read_csv`), a numeric value, or
non-numeric text.  Whitespace stripping (`.str.strip()` on the status column)
is absorbed into the model: a cell that is numeric after stripping is a `num`,
any other text is a `str`. -/
inductive Cell where
  | missing : Cell
  | num : ℚ → Cell
  | str : String → Cell
deriving DecidableEq, Repr

/-- Model of `pd.to_numeric(·, errors="coerce")` on one cell: text and missing
both coerce to NaN (`none`). -/
def Cell.toNum : Cell → Option ℚ
  | .num q => some q
  | _ => none

/-- Model of `pd.isna` on one cell: only an empty cell is NA; non-numeric text
is not. -/
def Cell.isNA : Cell → Bool
  | .missing => true
  | _ => false

/-- Model of the pandas comparison `object_column == integer` used on the
`Item code` column: a numeric cell compares by value, text and NaN compare
unequal to any integer. -/
def Cell.eqInt : Cell → ℤ → Bool
  | .num q, z => q == (z : ℚ)
  | _, _ => false

/-- A parsed timestamp at hour resolution.  `mo` stores month−1, so the
calendar month is `mo.val + 1 ∈ 1..12`; `h` is the hour of day `0..23`. -/
structure Timestamp where
  y : ℕ
  mo : Fin 12
  d : ℕ
  h : Fin 24
deriving DecidableEq, Repr

/-- Calendar month `1..12`, as produced by `.dt.month`. -/
def Timestamp.month (t : Timestamp) : ℕ := t.mo.val + 1

/-- Hour of day `0..23`, as produced by `.dt.hour`. -/
def Timestamp.hour (t : Timestamp) : ℕ := t.h.val

/-- Calendar date `(year, month−1, day)`, as produced by `.dt.date`. -/
def Timestamp.dateOf (t : Timestamp) : ℕ × ℕ × ℕ := (t.y, t.mo.val, t.d)

/-- A raw date cell: empty, a parseable date, or unparseable text.  `read_csv`
with `parse_dates` plus the later `pd.to_datetime(·, errors="coerce")` give
exactly this three-way per-row outcome for the measurement table. -/
inductive DCell where
  | missing : DCell
  | valid : Timestamp → DCell
  | invalid : DCell
deriving DecidableEq, Repr

/-- Model of `pd.isna` on a raw date cell. -/
def DCell.isNA : DCell → Bool
  | .missing => true
  | _ => false

/-- Model of `pd.to_datetime(·, errors="coerce")` on one cell: unparseable
text (and missing) become NaT (`none`). -/
def DCell.toInstant : DCell → Option Timestamp
  | .valid t => some t
  | _ => none

/-- A raw row of `measurement_data.csv`: `Measurement date`, `Station code`
and the six pollutant columns. -/
structure MRawRow where
  date : DCell
  station : Cell
  so2 : Cell
  no2 : Cell
  o3 : Cell
  co : Cell
  pm10 : Cell
  pm25 : Cell
deriving DecidableEq, Repr

/-- A normalized measurement row, as left by `preprocess_measurement_data`:
the date column went through `pd.to_datetime(errors="coerce")` and may hold
NaT (`none`); `Station code` is numeric (rows failing that coercion were
dropped); pollutant columns are numeric-or-NaN. -/
structure MRow where
  date : Option Timestamp
  station : ℚ
  so2 : Option ℚ
  no2 : Option ℚ
  o3 : Option ℚ
  co : Option ℚ
  pm10 : Option ℚ
  pm25 : Option ℚ
deriving DecidableEq, Repr

/-- A raw row of `instrument_data.csv`: `Measurement date`, `Station code`,
`Item code`, `Average value`, `Instrument status`.  The date is modelled as
already parsed-or-missing (`read_csv(parse_dates=...)`); `Average value` is
carried because it distinguishes otherwise-identical rows under
`drop_duplicates`. -/
structure IRawRow where
  date : Option Timestamp
  station : Cell
  itemCode : Cell
  avg : Cell
  status : Cell
deriving DecidableEq, Repr

/-- A normalized instrument-status row, as left by
`preprocess_instrument_data`: date, station and status are present and
numeric; `Item code` and `Average value` are carried over untouched — the
source never coerces or checks them. -/
structure IRow where
  date : Timestamp
  station : ℚ
  itemCode : Cell
  avg : Cell
  status : ℚ
deriving DecidableEq, Repr

/-- A row of `pollutant_data.csv`: pollutant name, channel code and the three
category thresholds read by Q6 (the `Very bad` column exists in the CSV but is
never read by the script). -/
structure PRow where
  name : String
  code : ℤ
  good : ℚ
  normal : ℚ
  bad : ℚ
deriving DecidableEq, Repr

/-- Model of `DataFrame.drop_duplicates()` (default `keep="first"`): keep the
first occurrence of each exact row, preserving order.  Structural recursion on
the input with an accumulator of rows already seen. -/
def dedupFirst {α : Type} [DecidableEq α] : List α → List α :=
  go []
where
  /-- Recursive worker: `seen` holds the rows already emitted. -/
  go (seen : List α) : List α → List α
    | [] => []
    | x :: xs => if x ∈ seen then go seen xs else x :: go (x :: seen) xs

/-- Per-row normalization of `preprocess_measurement_data` after
`drop_duplicates` (lines 22–35 of `questions.py`): drop the row if
`Measurement date` is NA; coerce pollutants to numeric (NaN on failure);
coerce `Station code` and drop the row if that fails; coerce the date with
`errors="coerce"` — an unparseable date yields NaT but the row is KEPT. -/
def convertMRow (r : MRawRow) : Option MRow :=
  if r.date.isNA then none
  else match r.station.toNum with
    | none => none
    | some st =>
      some { date := r.date.toInstant, station := st,
             so2 := r.so2.toNum, no2 := r.no2.toNum, o3 := r.o3.toNum,
             co := r.co.toNum, pm10 := r.pm10.toNum, pm25 := r.pm25.toNum }

/-- Model of `preprocess_measurement_data` (lines 22–35). -/
def preprocess_measurement_data (raw : List MRawRow) : List MRow :=
  (dedupFirst raw).filterMap convertMRow

/-- Per-row normalization of `preprocess_instrument_data` after
`drop_duplicates` (lines 37–46): drop rows with NA date, station or status;
coerce station and status to numeric and drop rows failing either coercion.
`Item code` and `Average value` are passed through untouched. -/
def convertIRow (r : IRawRow) : Option IRow :=
  match r.date, r.station.toNum, r.status.toNum with
  | some d, some st, some s => some { date := d, station := st,
                                      itemCode := r.itemCode, avg := r.avg, status := s }
  | _, _, _ => none

/-- Model of `preprocess_instrument_data` (lines 37–46). -/
def preprocess_instrument_data (raw : List IRawRow) : List IRow :=
  (dedupFirst raw).filterMap convertIRow

/-- Model of `load_pollutant_mapping` (lines 48–56) applied to one name: the
load result is `none` when the file cannot be read (the `except` branch
returns `{}`); `set_index('Item name')['Item code'].to_dict()` keeps the LAST
row of a duplicated name. -/
def load_pollutant_mapping (pLoad : Option (List PRow)) (nm : String) : Option ℤ :=
  match pLoad with
  | none => none
  | some tbl => ((tbl.filter (fun p => p.name = nm)).getLast?).map (fun p => p.code)

/-- Arithmetic mean of a list of rationals (`Series.mean`); the empty case is
junk (0) and is never used on an empty group. -/
def mean (l : List ℚ) : ℚ := l.sum / l.length

/-- Model of Python `round(x, 5)` / `Series.round(5)` on rationals.  The
half-way rule of binary-float banker's rounding is abstracted to Mathlib's
`round`; no claim depends on exact half-way cases. -/
def round5 (q : ℚ) : ℚ := ((round (q * 100000) : ℤ) : ℚ) / 100000

/-- Sample standard deviation is defined only for groups of at least two
elements (`Series.std` with `ddof=1` yields NaN on singletons); the model
returns the sample VARIANCE, since `idxmax` over standard deviations picks the
same index as over variances (square root is monotone) and variance stays in
`ℚ`. -/
def sampleVar (l : List ℚ) : Option ℚ :=
  if l.length ≤ 1 then none
  else some ((l.map (fun x => (x - mean l) ^ 2)).sum / ((l.length : ℚ) - 1))

/-- Model of `get_season` (lines 12–20), translated literally including the
catch-all `else` branch. -/
def get_season (month : ℕ) : String :=
  if month = 12 ∨ month = 1 ∨ month = 2 then "1"
  else if month = 3 ∨ month = 4 ∨ month = 5 then "2"
  else if month = 6 ∨ month = 7 ∨ month = 8 then "3"
  else "4"

/-- The `(Station code, Measurement date)` pairs of the instrument rows
selected for a channel: `df_instrument[(df_instrument['Item code'] == code) &
(df_instrument['Instrument status'] == 0)][['Station code', 'Measurement
date']]`.  Multiplicity is preserved — the source never deduplicates this
projection. -/
def instrPairs (instr : List IRow) (code : ℤ) : List (ℚ × Timestamp) :=
  (instr.filter (fun i => i.itemCode.eqInt code && (i.status == 0))).map
    (fun i => (i.station, i.date))

/-- Model of `pd.merge(df_measure, pairs, on=['Station code', 'Measurement
date'], how='inner')`: output rows follow the order of the left keys, one row
per matching (left, right) pair — a measurement row is REPEATED once per
matching instrument pair. -/
def mergeValid (ms : List MRow) (pairs : List (ℚ × Timestamp)) : List MRow :=
  ms.flatMap (fun m =>
    (pairs.filter (fun p => m.station == p.1 && m.date == some p.2)).map (fun _ => m))

/-- The validated readings for one pollutant: no channel code (the mapping
lookup returned `None`) gives the empty list and the metric keeps its
default; otherwise the status-0 join followed by `dropna` on the pollutant's
value column.  `val` selects the pollutant's value column of a row. -/
def validRows (ms : List MRow) (instr : List IRow) (code : Option ℤ)
    (val : MRow → Option ℚ) : List MRow :=
  match code with
  | none => []
  | some c => (mergeValid ms (instrPairs instr c)).filter (fun m => (val m).isSome)

/-- The pollutant value of a validated row (always present after the `dropna`
in `validRows`); 0 is junk for absent values and never read. -/
def valOf (val : MRow → Option ℚ) (m : MRow) : ℚ := (val m).getD 0

/-- Grouping key of Q1: `['Station code', merged['Measurement date'].dt.date]`.
Validated rows always carry a real date; `(0,0,0)` is junk for NaT. -/
def q1key (m : MRow) : ℚ × (ℕ × ℕ × ℕ) :=
  (m.station, (m.date.map Timestamp.dateOf).getD (0, 0, 0))

/-- Model of Q1 (lines 77–90): group the validated SO2 readings by
(station, date), take per-group means, then the mean of those means, rounded
to 5 decimals; 0.0 if the pollutant is unmapped or the join is empty.
`groupby` sorts the group keys, but the outer mean does not depend on group
order, so groups are enumerated in first-appearance order here. -/
def q1_of (ms : List MRow) (instr : List IRow) (code : Option ℤ) : ℚ :=
  let R := validRows ms instr code MRow.so2
  if R = [] then 0
  else
    let keys := dedupFirst (R.map q1key)
    let daily := keys.map (fun k => mean ((R.filter (fun m => q1key m = k)).map (valOf MRow.so2)))
    round5 (mean daily)

/-- The rows feeding Q2 (line 97–99): the CO status-0 join, restricted to
station 209, then `dropna` on CO — in exactly the source's filter order. -/
def q2rows (ms : List MRow) (instr : List IRow) (code : Option ℤ) : List MRow :=
  match code with
  | none => []
  | some c =>
    ((mergeValid ms (instrPairs instr c)).filter (fun m => m.station == 209)).filter
      (fun m => m.co.isSome)

/-- The season string of a validated row:
`merged['Measurement date'].dt.month.apply(get_season)` (validated rows always
carry a real date; month 0 is junk for NaT and never reached). -/
def seasonOf (m : MRow) : String := get_season ((m.date.map Timestamp.month).getD 0)

/-- Model of Q2 (lines 92–105) as the ordered key/value list of the resulting
dict: the all-zero four-season default survives only when the filtered join is
EMPTY; otherwise the dict is rebuilt from `groupby('season')` (keys sorted
ascending, as pandas sorts group keys) and seasons without data are absent. -/
def q2_of (ms : List MRow) (instr : List IRow) (code : Option ℤ) : List (String × ℚ) :=
  let R := q2rows ms instr code
  if R = [] then [("1", 0), ("2", 0), ("3", 0), ("4", 0)]
  else
    let keys := (["1", "2", "3", "4"]).filter (fun s => s ∈ R.map seasonOf)
    keys.map (fun s =>
      (s, round5 (mean ((R.filter (fun m => seasonOf m == s)).map (valOf MRow.co)))))

/-- Hour of a validated row, `merged['Measurement date'].dt.hour`. -/
def hourOf (m : MRow) : ℕ := ((m.date.map Timestamp.hour).getD 0)

/-- The distinct hours of the validated O3 readings in ascending order
(`groupby('hour')` sorts its keys; every hour is < 24). -/
def hoursOf (R : List MRow) : List ℕ :=
  (List.range 24).filter (fun h => h ∈ R.map hourOf)

/-- The O3 values of the validated rows falling in one hour-of-day group
(`merged.groupby('hour')['O3']`). -/
def o3At (R : List MRow) (h : ℕ) : List ℚ :=
  (R.filter (fun m => hourOf m = h)).map (valOf MRow.o3)

/-- Model of `Series.idxmax` over an index/value series whose NaN entries
(`none`) are skipped: the first index holding the maximal value, `none` when
every value is NaN (in which case the source raises). -/
def maxEntry : List (ℕ × Option ℚ) → Option (ℕ × ℚ)
  | [] => none
  | (_, none) :: rest => maxEntry rest
  | (h, some v) :: rest =>
    match maxEntry rest with
    | none => some (h, v)
    | some (h2, v2) => if v2 > v then some (h2, v2) else some (h, v)

/-- Model of Q3 (lines 107–117): `some q3` is the computed value, `none`
models the uncaught exception of `int(....std().idxmax())` when every hour
group is a singleton (all standard deviations NaN: `idxmax` on an all-NaN
series — or `int(nan)` on older pandas — raises). -/
def q3_of (ms : List MRow) (instr : List IRow) (code : Option ℤ) : Option ℕ :=
  match code with
  | none => some 0
  | some _ =>
    let R := validRows ms instr code MRow.o3
    if R = [] then some 0
    else
      let stds := (hoursOf R).map (fun h => (h, sampleVar (o3At R h)))
      (maxEntry stds).map (fun p => p.1)

/-- The keys of a series in first-appearance order, as the hashtable behind
`Series.value_counts` enumerates them. -/
def firstKeys : List ℚ → List ℚ := dedupFirst

/-- First key (in list order) whose count is maximal, with strict later
improvement: later keys win only with a strictly greater count, so ties keep
the earlier key. -/
def pickMax (cnt : ℚ → ℕ) : List ℚ → Option ℚ
  | [] => none
  | k :: ks =>
    match pickMax cnt ks with
    | none => some k
    | some b => if cnt b > cnt k then some b else some k

/-- Model of `series.value_counts().idxmax()`: `value_counts` lists keys in
first-appearance order and sorts by count descending (the sort is stable on
the small frames at issue, keeping first-appearance order among tied counts),
and `idxmax` takes the top — i.e. the earliest-appearing key of maximal
count. -/
def value_counts_idxmax (xs : List ℚ) : Option ℚ :=
  pickMax (fun k => xs.count k) (firstKeys xs)

/-- The `Station code` column of the status==9 rows (Q4, line 120). -/
def abnormalStations (instr : List IRow) : List ℚ :=
  (instr.filter (fun i => i.status == 9)).map (fun i => i.station)

/-- The `Station code` column of the status!=0 rows (Q5, line 124). -/
def notNormalStations (instr : List IRow) : List ℚ :=
  (instr.filter (fun i => ¬ i.status == 0)).map (fun i => i.station)

/-- Model of Q4 (lines 119–121) before the final `int(...)`. -/
def q4_raw (instr : List IRow) : Option ℚ := value_counts_idxmax (abnormalStations instr)

/-- Model of Q5 (lines 123–125) before the final `int(...)`. -/
def q5_raw (instr : List IRow) : Option ℚ := value_counts_idxmax (notNormalStations instr)

/-- Q4 as reported: `int(...)` truncation (station codes are non-negative
integers, where truncation and floor agree). -/
def q4_of (instr : List IRow) : Option ℤ := (q4_raw instr).map (fun q => ⌊q⌋)

/-- Q5 as reported. -/
def q5_of (instr : List IRow) : Option ℤ := (q5_raw instr).map (fun q => ⌊q⌋)

/-- The four bucket counters of Q6. -/
structure Q6Counts where
  good : ℕ
  normal : ℕ
  bad : ℕ
  veryBad : ℕ
deriving DecidableEq, Repr

/-- Model of the Q6 tally (lines 151–156): four independent boolean-mask
sums over the validated PM2.5 values. -/
def q6counts (vals : List ℚ) (good normal bad : ℚ) : Q6Counts :=
  { good := (vals.filter (fun v => v ≤ good)).length,
    normal := (vals.filter (fun v => good < v && v ≤ normal)).length,
    bad := (vals.filter (fun v => normal < v && v ≤ bad)).length,
    veryBad := (vals.filter (fun v => bad < v)).length }

/-- Model of Q6 (lines 127–156): the default all-zero mapping survives when
the pollutant is unmapped, the reference table cannot be re-read, it is
empty, or it has no `PM2.5` row; otherwise thresholds come from the FIRST
`PM2.5` row (`iloc[0]`) and the validated readings are tallied. -/
def q6_of (pLoad : Option (List PRow)) (code : Option ℤ)
    (ms : List MRow) (instr : List IRow) : Q6Counts :=
  match code with
  | none => ⟨0, 0, 0, 0⟩
  | some c =>
    match pLoad with
    | none => ⟨0, 0, 0, 0⟩
    | some tbl =>
      if tbl = [] then ⟨0, 0, 0, 0⟩
      else
        match (tbl.filter (fun p => p.name = "PM2.5")).head? with
        | none => ⟨0, 0, 0, 0⟩
        | some row =>
          let R := validRows ms instr (some c) MRow.pm25
          q6counts (R.map (valOf MRow.pm25)) row.good row.normal row.bad

/-- The `"target"` sub-mapping of the report. -/
structure Target where
  q1 : ℚ
  q2 : List (String × ℚ)
  q3 : ℕ
  q4 : Option ℤ
  q5 : Option ℤ
  q6 : Q6Counts
deriving DecidableEq, Repr

/-- Outcome of one run of `compute_task1`: the empty dict `{}` returned on a
table-load failure (lines 64 and 72), an uncaught exception, or the full
report. -/
inductive RunResult where
  | emptyReport : RunResult
  | raised : RunResult
  | report : Target → RunResult
deriving DecidableEq, Repr

/-- Whether a run produced the mapping with the `"target"` key and the six
metrics. -/
def RunResult.hasTarget : RunResult → Bool
  | .report _ => true
  | _ => false

/-- Model of `compute_task1` (lines 58–169).  The three `Option` arguments
are the load outcomes of the three CSV files (`none` = the `pd.read_csv`
raised).  A measurement or instrument load failure returns the empty dict at
once; the pollutant file is read twice (the mapping, and the Q6 re-read) with
the same outcome. -/
def compute_task1 (mLoad : Option (List MRawRow)) (iLoad : Option (List IRawRow))
    (pLoad : Option (List PRow)) : RunResult :=
  match mLoad with
  | none => .emptyReport
  | some mraw =>
    let ms := preprocess_measurement_data mraw
    match iLoad with
    | none => .emptyReport
    | some iraw =>
      let instr := preprocess_instrument_data iraw
      let pmap := load_pollutant_mapping pLoad
      match q3_of ms instr (pmap "O3") with
      | none => .raised
      | some q3 =>
        .report { q1 := q1_of ms instr (pmap "SO2"),
                  q2 := q2_of ms instr (pmap "CO"),
                  q3 := q3,
                  q4 := q4_of instr,
                  q5 := q5_of instr,
                  q6 := q6_of pLoad (pmap "PM2.5") ms instr }

/-! ### Library lemmas about the list-level building blocks -/

/-- Membership in the deduplication worker: an element is kept iff it occurs
in the remaining input and was not seen before. -/
theorem mem_dedupFirst_go {α : Type} [DecidableEq α] (l : List α) :
    ∀ (seen : List α) (x : α), x ∈ dedupFirst.go seen l ↔ x ∈ l ∧ x ∉ seen := by
  induction l with
  | nil => intro seen x; simp [dedupFirst.go]
  | cons a l ih =>
    intro seen x
    by_cases ha : a ∈ seen
    · simp only [dedupFirst.go, if_pos ha, ih, List.mem_cons]
      constructor
      · rintro ⟨hx, hns⟩; exact ⟨Or.inr hx, hns⟩
      · rintro ⟨hx | hx, hns⟩
        · exact absurd (hx ▸ ha) hns
        · exact ⟨hx, hns⟩
    · simp only [dedupFirst.go, if_neg ha, List.mem_cons, ih]
      by_cases hxa : x = a <;> aesop

/-- `drop_duplicates` keeps exactly the elements of the input. -/
theorem mem_dedupFirst {α : Type} [DecidableEq α] (l : List α) (x : α) :
    x ∈ dedupFirst l ↔ x ∈ l := by
  simpa [dedupFirst] using mem_dedupFirst_go l [] x

/-- The deduplication worker never repeats an element. -/
theorem nodup_dedupFirst_go {α : Type} [DecidableEq α] (l : List α) :
    ∀ seen : List α, (dedupFirst.go seen l).Nodup := by
  induction l with
  | nil => intro seen; simp [dedupFirst.go]
  | cons a l ih =>
    intro seen
    by_cases ha : a ∈ seen
    · simpa [dedupFirst.go, if_pos ha] using ih seen
    · simp only [dedupFirst.go, if_neg ha]
      refine List.nodup_cons.mpr ⟨fun hmem => ?_, ih (a :: seen)⟩
      exact ((mem_dedupFirst_go l (a :: seen) a).mp hmem).2 (List.mem_cons_self _ _)

/-- `drop_duplicates` leaves no duplicate rows. -/
theorem nodup_dedupFirst {α : Type} [DecidableEq α] (l : List α) : (dedupFirst l).Nodup :=
  nodup_dedupFirst_go l []

/-- Membership in the inner merge: a row appears iff it is a measurement row
matching some projected instrument pair on both keys. -/
theorem mem_mergeValid (ms : List MRow) (pairs : List (ℚ × Timestamp)) (m : MRow) :
    m ∈ mergeValid ms pairs ↔
      m ∈ ms ∧ ∃ p ∈ pairs, m.station = p.1 ∧ m.date = some p.2 := by
  simp only [mergeValid, List.mem_flatMap, List.mem_map, List.mem_filter]
  constructor
  · rintro ⟨a, ha, p, ⟨hp, hmatch⟩, rfl⟩
    simp only [Bool.and_eq_true, beq_iff_eq] at hmatch
    exact ⟨ha, p, hp, hmatch.1, hmatch.2⟩
  · rintro ⟨hm, p, hp, h1, h2⟩
    exact ⟨m, hm, p, ⟨hp, by simp [h1, h2]⟩, rfl⟩

/-- Membership in the projected status-0 selection for a channel. -/
theorem mem_instrPairs (instr : List IRow) (c : ℤ) (p : ℚ × Timestamp) :
    p ∈ instrPairs instr c ↔
      ∃ i ∈ instr, i.itemCode.eqInt c = true ∧ i.status = 0 ∧ p = (i.station, i.date) := by
  simp only [instrPairs, List.mem_map, List.mem_filter, Bool.and_eq_true, beq_iff_eq]
  constructor
  · rintro ⟨i, ⟨hi, hc, hs⟩, rfl⟩; exact ⟨i, hi, hc, hs, rfl⟩
  · rintro ⟨i, hi, hc, hs, rfl⟩; exact ⟨i, ⟨hi, hc, hs⟩, rfl⟩

/-! ### C1 — the validated-readings set -/

/-- C1: for every pollutant accessor and input tables, the set of validated
readings equals exactly the measurement rows with a non-null numeric value for
that pollutant whose (station, timestamp) pair exactly matches — both fields,
no time tolerance — an instrument-status row carrying that pollutant's channel
code with status 0; and with no channel-code mapping (`code = none`) the set
is empty. -/
theorem c1_validated_readings (ms : List MRow) (instr : List IRow) (code : Option ℤ)
    (val : MRow → Option ℚ) (m : MRow) :
    m ∈ validRows ms instr code val ↔
      ∃ c, code = some c ∧ m ∈ ms ∧ (val m).isSome = true ∧
        ∃ i ∈ instr, i.itemCode.eqInt c = true ∧ i.status = 0 ∧
          i.station = m.station ∧ m.date = some i.date := by
  cases code with
  | none => simp [validRows]
  | some c =>
    simp only [validRows, List.mem_filter, mem_mergeValid, Option.some.injEq]
    constructor
    · rintro ⟨⟨hm, p, hp, h1, h2⟩, hv⟩
      rcases (mem_instrPairs instr c p).mp hp with ⟨i, hi, hc, hs, rfl⟩
      exact ⟨c, rfl, hm, hv, i, hi, hc, hs, h1.symm, h2⟩
    · rintro ⟨c2, hc2, hm, hv, i, hi, hc, hs, hst, hdt⟩
      cases hc2
      refine ⟨⟨hm, (i.station, i.date), ?_, hst.symm, hdt⟩, hv⟩
      exact (mem_instrPairs instr c (i.station, i.date)).mpr ⟨i, hi, hc, hs, rfl⟩

/-! ### C10 — join multiplicity -/

/-- Each output row of the inner merge counts once per (left row, matching
pair): the multiplicity of a measurement row in the merged frame is its
multiplicity in the measurement table times the number of matching projected
instrument pairs. -/
theorem count_mergeValid (pairs : List (ℚ × Timestamp)) (m : MRow) :
    ∀ ms : List MRow, (mergeValid ms pairs).count m =
      ms.count m * pairs.countP (fun p => m.station == p.1 && m.date == some p.2) := by
  intro ms
  induction ms with
  | nil => simp [mergeValid]
  | cons a ms ih =>
    have hsplit : mergeValid (a :: ms) pairs =
        ((pairs.filter (fun p => a.station == p.1 && a.date == some p.2)).map (fun _ => a))
          ++ mergeValid ms pairs := by
      simp [mergeValid]
    rw [hsplit, List.count_append, ih, List.count_cons, List.map_const',
      List.count_replicate, ← List.countP_eq_length_filter]
    simp only [beq_iff_eq]
    by_cases hma : m = a
    · subst hma
      rw [if_pos rfl, if_pos rfl]
      ring
    · rw [if_neg (fun h => hma h.symm), if_neg (fun h => hma h.symm)]
      ring

/-- A January timestamp used by the concrete scenarios. -/
def tsJan : Timestamp := ⟨2023, ⟨0, by norm_num⟩, 1, ⟨0, by norm_num⟩⟩

/-- A July timestamp used by the concrete scenarios. -/
def tsJul : Timestamp := ⟨2023, ⟨6, by norm_num⟩, 1, ⟨0, by norm_num⟩⟩

/-- C10 (amended): the validity join does NOT bound multiplicity by one — a
measurement row appears once per matching status-0 instrument row of the
channel, so duplicated-key instrument rows (which survive `drop_duplicates`
whenever any other column, e.g. `Average value`, differs) duplicate the
measurement row in the merged frame. -/
theorem c10_join_multiplicity (ms : List MRow) (instr : List IRow) (c : ℤ) (m : MRow) :
    (mergeValid ms (instrPairs instr c)).count m =
      ms.count m * instr.countP (fun i =>
        (m.station == i.station && m.date == some i.date) &&
          (i.itemCode.eqInt c && i.status == 0)) := by
  rw [count_mergeValid]
  congr 1
  rw [instrPairs, List.countP_map, List.countP_filter]
  rfl

/-- Measurement row of the C10 scenario: station 1, January, PM2.5 = 10. -/
def c10m : MRawRow := ⟨.valid tsJan, .num 1, .missing, .missing, .missing, .missing, .missing, .num 10⟩

/-- First instrument row of the C10 scenario: station 1, January, channel 8,
status 0, average value 1. -/
def c10i1 : IRawRow := ⟨some tsJan, .num 1, .num 8, .num 1, .num 0⟩

/-- Second instrument row of the C10 scenario: identical join keys, but a
different `Average value`, so `drop_duplicates` keeps both. -/
def c10i2 : IRawRow := ⟨some tsJan, .num 1, .num 8, .num 2, .num 0⟩

/-- C10 counterexample: one measurement row and two status-0 instrument rows
sharing its (station, timestamp) for channel 8 — the preprocessed measurement
table has a single row, yet the validity join holds it TWICE, refuting "joined
multiplicity is at most one per measurement row". -/
theorem c10_counterexample :
    (preprocess_measurement_data [c10m]).length = 1 ∧
    (validRows (preprocess_measurement_data [c10m])
      (preprocess_instrument_data [c10i1, c10i2]) (some 8) MRow.pm25).length = 2 := by
  constructor <;>
  simp +decide [validRows, mergeValid, instrPairs, preprocess_measurement_data,
    preprocess_instrument_data, dedupFirst, dedupFirst.go, convertMRow, convertIRow,
    Cell.toNum, Cell.isNA, Cell.eqInt, DCell.isNA, DCell.toInstant, c10m, c10i1, c10i2, tsJan,
    List.filter, List.filterMap, List.flatMap]

/-! ### C6 — PM2.5 category buckets -/

/-- An air-quality category. -/
inductive Bucket where
  | good : Bucket
  | normal : Bucket
  | bad : Bucket
  | veryBad : Bucket
deriving DecidableEq, Repr

/-- The bucket the claim assigns to one reading: half-open intervals with the
upper boundary included in the LOWER bucket. -/
def specBucket (g n b v : ℚ) : Bucket :=
  if v ≤ g then .good
  else if v ≤ n then .normal
  else if v ≤ b then .bad
  else .veryBad

/-- Per-bucket tallies of the claim's assignment. -/
def specCounts (vals : List ℚ) (g n b : ℚ) : Q6Counts :=
  { good := (vals.filter (fun v => specBucket g n b v = .good)).length,
    normal := (vals.filter (fun v => specBucket g n b v = .normal)).length,
    bad := (vals.filter (fun v => specBucket g n b v = .bad)).length,
    veryBad := (vals.filter (fun v => specBucket g n b v = .veryBad)).length }

/-- The Good mask of the source coincides with the claimed Good bucket. -/
theorem specBucket_good (g n b v : ℚ) :
    (decide (v ≤ g)) = (decide (specBucket g n b v = Bucket.good)) := by
  simp only [specBucket, decide_eq_decide]
  split_ifs with h1 h2 h3 <;> simp_all

/-- The Normal mask of the source coincides with the claimed Normal bucket. -/
theorem specBucket_normal (g n b v : ℚ) :
    (decide (g < v) && decide (v ≤ n)) = (decide (specBucket g n b v = Bucket.normal)) := by
  simp only [specBucket, Bool.and_eq_decide, decide_eq_decide]
  split_ifs with h1 h2 h3 <;> simp_all

/-- The Bad mask of the source coincides with the claimed Bad bucket. -/
theorem specBucket_bad (g n b v : ℚ) (hgn : g ≤ n) (hnb : n ≤ b) :
    (decide (n < v) && decide (v ≤ b)) = (decide (specBucket g n b v = Bucket.bad)) := by
  simp only [specBucket, Bool.and_eq_decide, decide_eq_decide]
  split_ifs with h1 h2 h3 <;> simp_all <;> (try intro hx) <;> linarith

/-- The Very-bad mask of the source coincides with the claimed Very-bad
bucket. -/
theorem specBucket_veryBad (g n b v : ℚ) (hgn : g ≤ n) (hnb : n ≤ b) :
    (decide (b < v)) = (decide (specBucket g n b v = Bucket.veryBad)) := by
  simp only [specBucket, decide_eq_decide]
  split_ifs with h1 h2 h3 <;> simp_all <;> (try intro hx) <;> linarith

/-- C6: with ordered thresholds, the four boolean-mask tallies of the source
classify every reading into exactly the claimed bucket — `value ≤ good_max` is
Good, `good_max < value ≤ normal_max` is Normal, `normal_max < value ≤
bad_max` is Bad, `value > bad_max` is Very bad, boundaries falling to the
lower bucket. -/
theorem c6_bucket_boundaries (vals : List ℚ) (g n b : ℚ) (hgn : g ≤ n) (hnb : n ≤ b) :
    q6counts vals g n b = specCounts vals g n b := by
  simp only [q6counts, specCounts, Q6Counts.mk.injEq]
  exact ⟨congrArg List.length (List.filter_congr (fun v _ => specBucket_good g n b v)),
    congrArg List.length (List.filter_congr (fun v _ => specBucket_normal g n b v)),
    congrArg List.length (List.filter_congr (fun v _ => specBucket_bad g n b v hgn hnb)),
    congrArg List.length (List.filter_congr (fun v _ => specBucket_veryBad g n b v hgn hnb))⟩

/-- C6 witness: a concrete ordered threshold triple and reading list where the
theorem applies; the boundary readings 2, 9 and 12 land in Good, Normal and
Bad respectively. -/
theorem c6_witness :
    (2 : ℚ) ≤ 9 ∧ (9 : ℚ) ≤ 12 ∧
      q6counts [2, 9, 12, 40] 2 9 12 = specCounts [2, 9, 12, 40] 2 9 12 :=
  ⟨by norm_num, by norm_num, c6_bucket_boundaries [2, 9, 12, 40] 2 9 12 (by norm_num) (by norm_num)⟩

/-! ### C5 — Q4/Q5 tie-breaking -/

/-- `pickMax` never fails on a non-empty list. -/
theorem pickMax_isSome (cnt : ℚ → ℕ) (x : ℚ) (xs : List ℚ) :
    (pickMax cnt (x :: xs)).isSome := by
  simp only [pickMax]
  cases pickMax cnt xs with
  | none => rfl
  | some b => by_cases h : cnt b > cnt x <;> simp [h]

/-- The element chosen by `pickMax` splits the list into a strictly-smaller
prefix and a no-larger suffix: it is the FIRST element attaining the maximal
count. -/
theorem pickMax_split (cnt : ℚ → ℕ) :
    ∀ l k, pickMax cnt l = some k →
      ∃ l1 l2, l = l1 ++ k :: l2 ∧ (∀ a ∈ l1, cnt a < cnt k) ∧ (∀ a ∈ l2, cnt a ≤ cnt k) := by
  intro l
  induction l with
  | nil => intro k hk; simp [pickMax] at hk
  | cons x xs ih =>
    intro k hk
    simp only [pickMax] at hk
    revert hk
    cases hpm : pickMax cnt xs with
    | none =>
      intro hk
      cases hk
      have hxs : xs = [] := by
        cases xs with
        | nil => rfl
        | cons y ys => have := pickMax_isSome cnt y ys; rw [hpm] at this; cases this
      subst hxs
      exact ⟨[], [], rfl, by simp, by simp⟩
    | some b =>
      intro hk
      by_cases hcb : cnt b > cnt x
      · simp only [if_pos hcb] at hk
        cases hk
        rcases ih k hpm with ⟨l1, l2, rfl, h1, h2⟩
        refine ⟨x :: l1, l2, rfl, ?_, h2⟩
        intro a ha
        rcases List.mem_cons.mp ha with rfl | ha
        · exact hcb
        · exact h1 a ha
      · simp only [if_neg hcb] at hk
        cases hk
        push_neg at hcb
        rcases ih b hpm with ⟨l1, l2, heq, h1, h2⟩
        refine ⟨[], xs, rfl, by simp, ?_⟩
        intro a ha
        rw [heq] at ha
        rcases List.mem_append.mp ha with ha | ha
        · exact le_of_lt (lt_of_lt_of_le (h1 a ha) hcb)
        · rcases List.mem_cons.mp ha with rfl | ha
          · exact hcb
          · exact le_trans (h2 a ha) hcb

/-- The deduplicated key list is ordered by position of first occurrence in
the original column. -/
theorem pairwise_indexOf_dedupFirst_go (l : List ℚ) :
    ∀ seen : List ℚ, (dedupFirst.go seen l).Pairwise
      (fun a b => l.indexOf a < l.indexOf b) := by
  induction l with
  | nil => intro seen; simp [dedupFirst.go]
  | cons x xs ih =>
    intro seen
    by_cases hx : x ∈ seen
    · simp only [dedupFirst.go, if_pos hx]
      refine (ih seen).imp_of_mem ?_
      intro a b ha hb hab
      have hax : a ≠ x := fun h =>
        ((mem_dedupFirst_go xs seen a).mp ha).2 (h ▸ hx)
      have hbx : b ≠ x := fun h =>
        ((mem_dedupFirst_go xs seen b).mp hb).2 (h ▸ hx)
      rw [List.indexOf_cons_ne _ (Ne.symm hax), List.indexOf_cons_ne _ (Ne.symm hbx)]
      omega
    · simp only [dedupFirst.go, if_neg hx]
      refine List.pairwise_cons.mpr ⟨?_, ?_⟩
      · intro b hb
        have hbx : b ≠ x := fun h =>
          ((mem_dedupFirst_go xs (x :: seen) b).mp hb).2 (h ▸ List.mem_cons_self x seen)
        rw [List.indexOf_cons_self, List.indexOf_cons_ne _ (Ne.symm hbx)]
        omega
      · refine (ih (x :: seen)).imp_of_mem ?_
        intro a b ha hb hab
        have hax : a ≠ x := fun h =>
          ((mem_dedupFirst_go xs (x :: seen) a).mp ha).2 (h ▸ List.mem_cons_self x seen)
        have hbx : b ≠ x := fun h =>
          ((mem_dedupFirst_go xs (x :: seen) b).mp hb).2 (h ▸ List.mem_cons_self x seen)
        rw [List.indexOf_cons_ne _ (Ne.symm hax), List.indexOf_cons_ne _ (Ne.symm hbx)]
        omega

/-- `firstKeys` is ordered by first occurrence. -/
theorem pairwise_indexOf_firstKeys (l : List ℚ) :
    (firstKeys l).Pairwise (fun a b => l.indexOf a < l.indexOf b) :=
  pairwise_indexOf_dedupFirst_go l []

/-- What `value_counts().idxmax()` returns: a member of the column whose
count is maximal, and — among tied counts — whose first occurrence in the
column is earliest. -/
theorem value_counts_idxmax_spec (xs : List ℚ) (s : ℚ)
    (h : value_counts_idxmax xs = some s) :
    s ∈ xs ∧ ∀ k ∈ xs, xs.count k ≤ xs.count s ∧
      (xs.count k = xs.count s → xs.indexOf s ≤ xs.indexOf k) := by
  rcases pickMax_split (fun k => xs.count k) (firstKeys xs) s h with ⟨l1, l2, heq, h1, h2⟩
  have hmem : ∀ a : ℚ, a ∈ firstKeys xs ↔ a ∈ xs := fun a => mem_dedupFirst xs a
  have hs : s ∈ xs := (hmem s).mp (heq ▸ List.mem_append.mpr (Or.inr (List.mem_cons_self s l2)))
  refine ⟨hs, ?_⟩
  intro k hk
  have hk2 : k ∈ firstKeys xs := (hmem k).mpr hk
  rw [heq] at hk2
  have hpw := pairwise_indexOf_firstKeys xs
  rw [heq] at hpw
  rcases List.mem_append.mp hk2 with hk3 | hk3
  · exact ⟨le_of_lt (h1 k hk3), fun hcnt => absurd hcnt (ne_of_lt (h1 k hk3))⟩
  · rcases List.mem_cons.mp hk3 with rfl | hk3
    · exact ⟨le_refl _, fun _ => le_refl _⟩
    · refine ⟨h2 k hk3, fun _ => ?_⟩
      have := (List.pairwise_append.mp hpw).2.1
      exact le_of_lt (List.rel_of_pairwise_cons this hk3)

/-- C5 (amended): on a tie in the abnormal counts, Q4 and Q5 return the
station of maximal count whose FIRST OCCURRENCE in the filtered status column
is earliest (`value_counts` keeps first-appearance order among tied counts and
`idxmax` takes the top) — not the smallest station_id. -/
theorem c5_tie_break (instr : List IRow) :
    (∀ s, q4_raw instr = some s →
        s ∈ abnormalStations instr ∧
        ∀ k ∈ abnormalStations instr,
          (abnormalStations instr).count k ≤ (abnormalStations instr).count s ∧
          ((abnormalStations instr).count k = (abnormalStations instr).count s →
            (abnormalStations instr).indexOf s ≤ (abnormalStations instr).indexOf k)) ∧
    (∀ s, q5_raw instr = some s →
        s ∈ notNormalStations instr ∧
        ∀ k ∈ notNormalStations instr,
          (notNormalStations instr).count k ≤ (notNormalStations instr).count s ∧
          ((notNormalStations instr).count k = (notNormalStations instr).count s →
            (notNormalStations instr).indexOf s ≤ (notNormalStations instr).indexOf k)) :=
  ⟨fun s h => value_counts_idxmax_spec (abnormalStations instr) s h,
   fun s h => value_counts_idxmax_spec (notNormalStations instr) s h⟩

/-- Instrument row of the C5 scenario: station 300 reports status 9 first. -/
def c5i300 : IRawRow := ⟨some tsJan, .num 300, .num 1, .num 1, .num 9⟩

/-- Instrument row of the C5 scenario: station 200 reports status 9 second. -/
def c5i200 : IRawRow := ⟨some tsJan, .num 200, .num 1, .num 2, .num 9⟩

/-- C5 counterexample: stations 300 and 200 each have one status-9 row, 300
appearing first; Q4 returns 300, not the smallest station id 200 — the same
column drives Q5, which also returns 300. -/
theorem c5_counterexample :
    q4_of (preprocess_instrument_data [c5i300, c5i200]) = some 300 ∧
    q5_of (preprocess_instrument_data [c5i300, c5i200]) = some 300 := by
  constructor <;>
  simp +decide [q4_of, q5_of, q4_raw, q5_raw, value_counts_idxmax, firstKeys, pickMax,
    abnormalStations, notNormalStations, preprocess_instrument_data, dedupFirst,
    dedupFirst.go, convertIRow, Cell.toNum, c5i300, c5i200, tsJan, List.filter,
    List.filterMap, List.count]

/-- C5 satisfiability evidence: the hypotheses of the tie-break theorem are
realizable — in the tied scenario Q4 indeed picks a station, namely the
first-appearing 300. -/
theorem c5_witness :
    q4_raw (preprocess_instrument_data [c5i300, c5i200]) = some 300 ∧
    (300 : ℚ) ∈ abnormalStations (preprocess_instrument_data [c5i300, c5i200]) :=
  ⟨by simp +decide [q4_raw, value_counts_idxmax, firstKeys, pickMax, abnormalStations,
      preprocess_instrument_data, dedupFirst, dedupFirst.go, convertIRow, Cell.toNum,
      c5i300, c5i200, tsJan, List.filter, List.filterMap, List.count],
   (c5_tie_break (preprocess_instrument_data [c5i300, c5i200])).1 300
      (by simp +decide [q4_raw, value_counts_idxmax, firstKeys, pickMax, abnormalStations,
        preprocess_instrument_data, dedupFirst, dedupFirst.go, convertIRow, Cell.toNum,
        c5i300, c5i200, tsJan, List.filter, List.filterMap, List.count]) |>.1⟩

/-! ### C2 — Q2 season keys -/

/-- Looking a key up in an association list built over a key list: the first
matching pair carries `f k`. -/
theorem lookup_map_keys (f : String → ℚ) :
    ∀ (keys : List String) (k : String),
      (keys.map (fun s => (s, f s))).lookup k = if k ∈ keys then some (f k) else none := by
  intro keys k
  induction keys with
  | nil => simp
  | cons a ks ih =>
    simp only [List.map_cons, List.lookup]
    cases hbeq : (k == a) with
    | true =>
      have hka : k = a := eq_of_beq hbeq
      subst hka
      simp
    | false =>
      have hne : k ≠ a := fun h => by simp [h] at hbeq
      simp [List.mem_cons, hne, ih]

/-- `get_season` only produces the four season codes. -/
theorem get_season_mem (month : ℕ) : get_season month ∈ (["1", "2", "3", "4"] : List String) := by
  unfold get_season
  split_ifs <;> simp

/-- C2 (amended): the Q2 mapping holds all four season keys (each 0.0) exactly
when there are NO validated station-209 CO readings; otherwise it holds
exactly the seasons that have data — a season with no readings is OMITTED, not
reported as 0.0 — each mapped to the rounded mean of its readings. -/
theorem c2_season_keys (ms : List MRow) (instr : List IRow) (code : Option ℤ) (k : String) :
    (q2_of ms instr code).lookup k =
      (if q2rows ms instr code = [] then
        (if k ∈ (["1", "2", "3", "4"] : List String) then some 0 else none)
      else if k ∈ (q2rows ms instr code).map seasonOf then
        some (round5 (mean (((q2rows ms instr code).filter
          (fun m => seasonOf m == k)).map (valOf MRow.co))))
      else none) := by
  by_cases hR : q2rows ms instr code = []
  · rw [if_pos hR]
    simp only [q2_of, hR, if_pos]
    have h := lookup_map_keys (fun _ => (0 : ℚ)) ["1", "2", "3", "4"] k
    simpa using h
  · rw [if_neg hR]
    simp only [q2_of, if_neg hR]
    rw [lookup_map_keys (fun s =>
      round5 (mean (((q2rows ms instr code).filter
        (fun m => seasonOf m == s)).map (valOf MRow.co))))]
    have hmem : (k ∈ (["1", "2", "3", "4"] : List String).filter
        (fun s => s ∈ (q2rows ms instr code).map seasonOf)) ↔
        k ∈ (q2rows ms instr code).map seasonOf := by
      simp only [List.mem_filter, decide_eq_true_eq]
      constructor
      · rintro ⟨_, h⟩; exact h
      · intro h
        refine ⟨?_, h⟩
        rcases List.mem_map.mp h with ⟨m, _, rfl⟩
        exact get_season_mem _
    by_cases hk : k ∈ (q2rows ms instr code).map seasonOf
    · rw [if_pos (hmem.mpr hk), if_pos hk]
    · rw [if_neg (fun h => hk (hmem.mp h)), if_neg hk]

/-- January measurement row of the C2 scenario: station 209, CO = 1.0. -/
def c2mJan : MRawRow := ⟨.valid tsJan, .num 209, .missing, .missing, .missing, .num 1, .missing, .missing⟩

/-- July measurement row of the C2 scenario: station 209, CO = 3.0. -/
def c2mJul : MRawRow := ⟨.valid tsJul, .num 209, .missing, .missing, .missing, .num 3, .missing, .missing⟩

/-- January status-0 instrument row of the C2 scenario (CO channel 1). -/
def c2iJan : IRawRow := ⟨some tsJan, .num 209, .num 1, .num 1, .num 0⟩

/-- July status-0 instrument row of the C2 scenario (CO channel 1). -/
def c2iJul : IRawRow := ⟨some tsJul, .num 209, .num 1, .num 3, .num 0⟩

/-- C2 counterexample: in the claim's own end-to-end scenario (station-209
CO = 1.0 in January and 3.0 in July, both status-0 matched, CO channel 1) the
computed Q2 dict is {"1": 1.0, "3": 3.0} — seasons "2" and "4" are ABSENT, not
0.0, refuting both the scenario equality and the four-keys-always claim. -/
theorem c2_counterexample :
    q2_of (preprocess_measurement_data [c2mJan, c2mJul])
        (preprocess_instrument_data [c2iJan, c2iJul]) (some 1) = [("1", 1), ("3", 3)] ∧
    (q2_of (preprocess_measurement_data [c2mJan, c2mJul])
        (preprocess_instrument_data [c2iJan, c2iJul]) (some 1)).lookup "2" = none ∧
    (q2_of (preprocess_measurement_data [c2mJan, c2mJul])
        (preprocess_instrument_data [c2iJan, c2iJul]) (some 1)).lookup "4" = none := by
  have h : q2_of (preprocess_measurement_data [c2mJan, c2mJul])
      (preprocess_instrument_data [c2iJan, c2iJul]) (some 1) = [("1", 1), ("3", 3)] := by
    simp +decide [q2_of, q2rows, seasonOf, mergeValid, instrPairs,
      preprocess_measurement_data, preprocess_instrument_data, dedupFirst, dedupFirst.go,
      convertMRow, convertIRow, Cell.toNum, Cell.isNA, Cell.eqInt, DCell.isNA,
      DCell.toInstant, c2mJan, c2mJul, c2iJan, c2iJul, tsJan, tsJul, get_season,
      Timestamp.month, List.filter, List.filterMap, List.flatMap]
    norm_num [mean, valOf, round5, round_eq]
  exact ⟨h, by rw [h]; rfl, by rw [h]; rfl⟩

/-! ### C4 — report shape under load failure -/

/-- C4 (amended): when either the measurement or the instrument table fails
to load, `compute_task1` returns the EMPTY dict — no `"target"` key, no
metric defaults, and the other metrics are abandoned; only when both loads
succeed is the six-key report produced (or, in the Q3 all-singleton-hours
corner, an exception raised). -/
theorem c4_report_shape (mLoad : Option (List MRawRow)) (iLoad : Option (List IRawRow))
    (pLoad : Option (List PRow)) :
    ((mLoad = none ∨ iLoad = none) → compute_task1 mLoad iLoad pLoad = .emptyReport) ∧
    (∀ mraw iraw, mLoad = some mraw → iLoad = some iraw →
      compute_task1 mLoad iLoad pLoad = .raised ∨
        (compute_task1 mLoad iLoad pLoad).hasTarget = true) := by
  constructor
  · rintro (rfl | rfl)
    · rfl
    · cases mLoad <;> rfl
  · rintro mraw iraw rfl rfl
    simp only [compute_task1]
    cases hq3 : q3_of (preprocess_measurement_data mraw) (preprocess_instrument_data iraw)
        (load_pollutant_mapping pLoad "O3") with
    | none => exact Or.inl rfl
    | some q3 => exact Or.inr rfl

/-- A pollutant-reference row for CO (channel 1). -/
def pRowCO : PRow := ⟨"CO", 1, 2, 9, 15⟩

/-- C4 counterexample: with the measurement load failing (and likewise the
instrument load), the run result is the empty dict, which holds NO `"target"`
mapping and none of the keys Q1..Q6 — refuting "the computation produces a
report containing all six keys" for load-failure inputs. -/
theorem c4_counterexample :
    compute_task1 none (some [c2iJan]) (some [pRowCO]) = RunResult.emptyReport ∧
    (compute_task1 none (some [c2iJan]) (some [pRowCO])).hasTarget = false ∧
    compute_task1 (some [c2mJan]) none (some [pRowCO]) = RunResult.emptyReport ∧
    (compute_task1 (some [c2mJan]) none (some [pRowCO])).hasTarget = false :=
  ⟨rfl, rfl, rfl, rfl⟩

/-- C4 satisfiability evidence: with both loads succeeding (empty tables),
the full six-key report is produced. -/
theorem c4_witness : (compute_task1 (some []) (some []) none).hasTarget = true := rfl

/-! ### C9 — empty instrument table -/

/-- The merge against an empty pair list is empty. -/
theorem mergeValid_nil (ms : List MRow) : mergeValid ms [] = [] := by
  simp [mergeValid]

/-- C9: feeding a zero-row instrument table yields a full report (no
exception) with Q4 = null and Q5 = null; and whenever the filtered status
column is empty — no status==9 rows for Q4, no status!=0 rows for Q5 — the
respective metric is null. -/
theorem c9_empty_instrument (mraw : List MRawRow) (pLoad : Option (List PRow))
    (instr : List IRow) :
    (∃ t, compute_task1 (some mraw) (some []) pLoad = .report t ∧
      t.q4 = none ∧ t.q5 = none) ∧
    (abnormalStations instr = [] → q4_of instr = none) ∧
    (notNormalStations instr = [] → q5_of instr = none) := by
  refine ⟨?_, ?_, ?_⟩
  · have hq3 : ∀ code, q3_of (preprocess_measurement_data mraw) [] code = some 0 := by
      intro code
      cases code with
      | none => rfl
      | some c => simp [q3_of, validRows, instrPairs, mergeValid_nil]
    refine ⟨⟨q1_of (preprocess_measurement_data mraw) [] (load_pollutant_mapping pLoad "SO2"),
      q2_of (preprocess_measurement_data mraw) [] (load_pollutant_mapping pLoad "CO"),
      0, none, none,
      q6_of pLoad (load_pollutant_mapping pLoad "PM2.5")
        (preprocess_measurement_data mraw) []⟩, ?_, rfl, rfl⟩
    simp only [compute_task1]
    rw [show preprocess_instrument_data [] = [] from rfl, hq3]
    rfl
  · intro h
    simp [q4_of, q4_raw, value_counts_idxmax, h, firstKeys, dedupFirst, dedupFirst.go, pickMax]
  · intro h
    simp [q5_of, q5_raw, value_counts_idxmax, h, firstKeys, dedupFirst, dedupFirst.go, pickMax]

/-! ### C8 — normalization guarantees -/

/-- C8 (amended): after normalization, every retained instrument-status row
comes from a raw row with timestamp PRESENT and with station and status
successfully coerced to numbers (raw rows missing or failing those are
dropped) — but the channel code (`Item code`) is neither coerced nor checked
and is carried through verbatim, as is `Average value`; every retained
measurement row has a present timestamp field and a numerically-coerced
station, while a timestamp failing datetime coercion is RETAINED as a null
instant (NaT), not dropped. -/
theorem c8_normalization (mraw : List MRawRow) (iraw : List IRawRow) :
    (∀ r ∈ preprocess_instrument_data iraw, ∃ rr ∈ iraw,
        rr.date = some r.date ∧ rr.station.toNum = some r.station ∧
        rr.status.toNum = some r.status ∧ rr.itemCode = r.itemCode ∧ rr.avg = r.avg) ∧
    (∀ rr ∈ iraw, (rr.date = none ∨ rr.station.toNum = none ∨ rr.status.toNum = none) →
        convertIRow rr = none) ∧
    (∀ r ∈ preprocess_measurement_data mraw, ∃ rr ∈ mraw,
        rr.date.isNA = false ∧ rr.station.toNum = some r.station ∧
        r.date = rr.date.toInstant ∧ r.so2 = rr.so2.toNum ∧ r.no2 = rr.no2.toNum ∧
        r.o3 = rr.o3.toNum ∧ r.co = rr.co.toNum ∧ r.pm10 = rr.pm10.toNum ∧
        r.pm25 = rr.pm25.toNum) ∧
    (∀ rr ∈ mraw, (rr.date.isNA = true ∨ rr.station.toNum = none) →
        convertMRow rr = none) := by
  refine ⟨?_, ?_, ?_, ?_⟩
  · intro r hr
    rcases List.mem_filterMap.mp hr with ⟨rr, hrr, hconv⟩
    refine ⟨rr, (mem_dedupFirst _ _).mp hrr, ?_⟩
    unfold convertIRow at hconv
    split at hconv
    · next d st s hd hst hs =>
      cases hconv
      exact ⟨hd, hst, hs, rfl, rfl⟩
    · cases hconv
  · rintro rr _ (h | h | h)
    · cases hst : rr.station.toNum <;> cases hss : rr.status.toNum <;>
        simp [convertIRow, h, hst, hss]
    · cases hd : rr.date <;> cases hss : rr.status.toNum <;>
        simp [convertIRow, h, hd, hss]
    · cases hd : rr.date <;> cases hst : rr.station.toNum <;>
        simp [convertIRow, h, hd, hst]
  · intro r hr
    rcases List.mem_filterMap.mp hr with ⟨rr, hrr, hconv⟩
    refine ⟨rr, (mem_dedupFirst _ _).mp hrr, ?_⟩
    unfold convertMRow at hconv
    split at hconv
    · cases hconv
    · next hna =>
      split at hconv
      · cases hconv
      · next st hst =>
        cases hconv
        exact ⟨by simpa using hna, hst, rfl, rfl, rfl, rfl, rfl, rfl, rfl⟩
  · rintro rr _ (h | h)
    · simp [convertMRow, h]
    · simp [convertMRow, h]

/-- C8 instrument fixture: a status-0 row whose `Item code` cell is the
non-numeric text `"SO2"`. -/
def c8iBad : IRawRow := ⟨some tsJan, .num 1, .str "SO2", .num 1, .num 0⟩

/-- C8 measurement fixture: a present but unparseable `Measurement date`. -/
def c8mBad : MRawRow := ⟨.invalid, .num 1, .num 2, .missing, .missing, .missing, .missing, .missing⟩

/-- C8 counterexample: the instrument row with the textual channel code is
RETAINED with its channel code uncoerced (refuting "channel_code ... numeric
... every row failing such coercion is dropped"), and the measurement row
whose timestamp fails coercion is RETAINED with a null instant (refuting
"timestamp coerced to a valid instant — and every row failing such coercion
is dropped"). -/
theorem c8_counterexample :
    (preprocess_instrument_data [c8iBad]).map IRow.itemCode = [Cell.str "SO2"] ∧
    (preprocess_measurement_data [c8mBad]).length = 1 ∧
    (preprocess_measurement_data [c8mBad]).map MRow.date = [none] := by
  refine ⟨?_, ?_, ?_⟩ <;>
  simp +decide [preprocess_instrument_data, preprocess_measurement_data, dedupFirst,
    dedupFirst.go, convertIRow, convertMRow, Cell.toNum, Cell.isNA, DCell.isNA,
    DCell.toInstant, c8iBad, c8mBad, tsJan, List.filterMap]

/-! ### C3 — Q1 two-level mean -/

/-- The spec-side two-level average, written over the FINSET of distinct
(station, date) keys: the sum of per-group means divided by the number of
distinct station-days — each station-day weighted equally regardless of its
sample count. -/
def specTwoLevel (R : List MRow) : ℚ :=
  (∑ k ∈ (R.map q1key).toFinset,
      mean ((R.filter (fun m => q1key m = k)).map (valOf MRow.so2))) /
    ((R.map q1key).toFinset.card : ℚ)

/-- C3: Q1 is the rounded two-level average of the validated SO2 readings —
the mean over distinct (station, calendar-date) groups of the per-group
means — and 0.0 when the validated set is empty (in particular when SO2 has
no channel code). -/
theorem c3_two_level_mean (ms : List MRow) (instr : List IRow) (code : Option ℤ) :
    q1_of ms instr code =
      if validRows ms instr code MRow.so2 = [] then 0
      else round5 (specTwoLevel (validRows ms instr code MRow.so2)) := by
  by_cases hR : validRows ms instr code MRow.so2 = []
  · simp [q1_of, hR]
  · rw [if_neg hR]
    simp only [q1_of, if_neg hR]
    congr 1
    have hnd : (dedupFirst ((validRows ms instr code MRow.so2).map q1key)).Nodup :=
      nodup_dedupFirst _
    have hset : (dedupFirst ((validRows ms instr code MRow.so2).map q1key)).toFinset =
        ((validRows ms instr code MRow.so2).map q1key).toFinset := by
      ext k
      simp [List.mem_toFinset, mem_dedupFirst]
    unfold specTwoLevel mean
    rw [← hset, List.sum_toFinset _ hnd, List.toFinset_card_of_nodup hnd]
    simp

/-- A second January timestamp on the same calendar day, hour 1. -/
def tsJanH1 : Timestamp := ⟨2023, ⟨0, by norm_num⟩, 1, ⟨1, by norm_num⟩⟩

/-- C3 fixture: station 1 contributes two same-day SO2 samples (1 and 2),
station 2 contributes one (7/2). -/
def c3m1 : MRawRow := ⟨.valid tsJan, .num 1, .num 1, .missing, .missing, .missing, .missing, .missing⟩

/-- Second sample of station 1 on the same day. -/
def c3m2 : MRawRow := ⟨.valid tsJanH1, .num 1, .num 2, .missing, .missing, .missing, .missing, .missing⟩

/-- Single sample of station 2. -/
def c3m3 : MRawRow := ⟨.valid tsJan, .num 2, .num (7/2), .missing, .missing, .missing, .missing, .missing⟩

/-- Status-0 instrument rows matching the three C3 samples on channel 9. -/
def c3i1 : IRawRow := ⟨some tsJan, .num 1, .num 9, .num 1, .num 0⟩

/-- Status-0 match for the second station-1 sample. -/
def c3i2 : IRawRow := ⟨some tsJanH1, .num 1, .num 9, .num 2, .num 0⟩

/-- Status-0 match for the station-2 sample. -/
def c3i3 : IRawRow := ⟨some tsJan, .num 2, .num 9, .num 3, .num 0⟩

/-- C3 evidence on a concrete fixture with unequal group sizes: the two-level
Q1 is (1.5 + 3.5)/2 = 2.5, while the flat mean of the same three validated
readings is 13/6 — the double averaging is really there. -/
theorem c3_witness :
    q1_of (preprocess_measurement_data [c3m1, c3m2, c3m3])
        (preprocess_instrument_data [c3i1, c3i2, c3i3]) (some 9) = 5/2 ∧
    mean ((validRows (preprocess_measurement_data [c3m1, c3m2, c3m3])
        (preprocess_instrument_data [c3i1, c3i2, c3i3]) (some 9) MRow.so2).map
          (valOf MRow.so2)) = 13/6 ∧
    (5/2 : ℚ) ≠ 13/6 := by
  refine ⟨?_, ?_, by norm_num⟩ <;>
  · simp +decide [q1_of, q1key, validRows, mergeValid, instrPairs,
      preprocess_measurement_data, preprocess_instrument_data, dedupFirst, dedupFirst.go,
      convertMRow, convertIRow, Cell.toNum, Cell.isNA, Cell.eqInt, DCell.isNA,
      DCell.toInstant, c3m1, c3m2, c3m3, c3i1, c3i2, c3i3, tsJan, tsJanH1,
      Timestamp.dateOf, List.filter, List.filterMap, List.flatMap]
    norm_num [mean, valOf, round5, round_eq]

/-! ### C7 — Q3 hour of highest O3 variability -/

/-- `idxmax` gives nothing exactly when every value of the series is NaN. -/
theorem maxEntry_eq_none (l : List (ℕ × Option ℚ)) :
    maxEntry l = none ↔ ∀ p ∈ l, p.2 = none := by
  induction l with
  | nil => simp [maxEntry]
  | cons a rest ih =>
    rcases a with ⟨h, _ | v⟩
    · simpa [maxEntry] using ih
    · simp only [maxEntry]
      constructor
      · intro hcontr
        exfalso
        revert hcontr
        cases maxEntry rest with
        | none => simp
        | some b => by_cases hb : b.2 > v <;> simp [hb]
      · intro hall
        exact absurd (hall (h, some v) (List.mem_cons_self _ _)) (by simp)

/-- What `idxmax` returns on a series with strictly increasing indices: an
index holding a non-NaN value that every non-NaN entry is ≤, with ties going
to the smaller index. -/
theorem maxEntry_spec :
    ∀ l : List (ℕ × Option ℚ), l.Pairwise (fun a b => a.1 < b.1) →
      ∀ h v, maxEntry l = some (h, v) →
        (h, some v) ∈ l ∧ ∀ h2 v2, (h2, some v2) ∈ l → v2 ≤ v ∧ (v2 = v → h ≤ h2) := by
  intro l
  induction l with
  | nil => intro _ h v hm; cases hm
  | cons a rest ih =>
    intro hpw h v hm
    have hpw2 := List.pairwise_cons.mp hpw
    rcases a with ⟨k, _ | w⟩
    · simp only [maxEntry] at hm
      rcases ih hpw2.2 h v hm with ⟨hmem, hall⟩
      refine ⟨List.mem_cons_of_mem _ hmem, ?_⟩
      intro h2 v2 hmem2
      rcases List.mem_cons.mp hmem2 with heq | hmem2
      · cases heq
      · exact hall h2 v2 hmem2
    · simp only [maxEntry] at hm
      revert hm
      cases hrest : maxEntry rest with
      | none =>
        intro hm
        cases hm
        have hnone := (maxEntry_eq_none rest).mp hrest
        refine ⟨List.mem_cons_self _ _, ?_⟩
        intro h2 v2 hmem2
        rcases List.mem_cons.mp hmem2 with heq | hmem2
        · cases heq
          exact ⟨le_refl _, fun _ => le_refl _⟩
        · exact absurd (hnone (h2, some v2) hmem2) (by simp)
      | some b =>
        intro hm
        rcases b with ⟨hb, vb⟩
        rcases ih hpw2.2 hb vb hrest with ⟨hmemb, hallb⟩
        by_cases hgt : vb > w
        · simp only [if_pos hgt] at hm
          cases hm
          refine ⟨List.mem_cons_of_mem _ hmemb, ?_⟩
          intro h2 v2 hmem2
          rcases List.mem_cons.mp hmem2 with heq | hmem2
          · cases heq
            exact ⟨le_of_lt hgt, fun hvw => absurd hvw (ne_of_lt hgt)⟩
          · exact hallb h2 v2 hmem2
        · simp only [if_neg hgt] at hm
          cases hm
          push_neg at hgt
          refine ⟨List.mem_cons_self _ _, ?_⟩
          intro h2 v2 hmem2
          rcases List.mem_cons.mp hmem2 with heq | hmem2
          · cases heq
            exact ⟨le_refl _, fun _ => le_refl _⟩
          · refine ⟨le_trans (hallb h2 v2 hmem2).1 hgt, fun _ => ?_⟩
            exact le_of_lt (hpw2.1 (h2, some v2) hmem2)

/-- Every row's hour of day is below 24 (a parsed datetime's `.dt.hour`). -/
theorem hourOf_lt (m : MRow) : hourOf m < 24 := by
  rcases m with ⟨_ | d, _⟩
  · simp [hourOf]
  · simpa [hourOf, Timestamp.hour] using d.h.isLt

/-- The hour keys of `groupby('hour')` are strictly increasing. -/
theorem hoursOf_pairwise (R : List MRow) : (hoursOf R).Pairwise (· < ·) :=
  (List.pairwise_lt_range 24).sublist (List.filter_sublist _)

/-- An hour is a group key iff some validated row falls in it. -/
theorem mem_hoursOf (R : List MRow) (h : ℕ) : h ∈ hoursOf R ↔ h ∈ R.map hourOf := by
  constructor
  · intro hm
    exact of_decide_eq_true (List.mem_filter.mp hm).2
  · intro hm
    refine List.mem_filter.mpr ⟨?_, by simpa using hm⟩
    rcases List.mem_map.mp hm with ⟨m, _, rfl⟩
    exact List.mem_range.mpr (hourOf_lt m)

/-- Hours outside the group keys hold no validated rows. -/
theorem o3At_eq_nil (R : List MRow) (h : ℕ) (hm : h ∉ R.map hourOf) : o3At R h = [] := by
  unfold o3At
  rw [List.filter_eq_nil_iff.mpr, List.map_nil]
  intro m hmem
  simp only [decide_eq_true_eq]
  exact fun he => hm (List.mem_map.mpr ⟨m, hmem, he⟩)

/-- `Series.std` (ddof = 1) is NaN exactly on groups of fewer than two
samples. -/
theorem sampleVar_eq_none (l : List ℚ) : sampleVar l = none ↔ l.length ≤ 1 := by
  unfold sampleVar
  split_ifs with hlen <;> simp [hlen]

/-- C7 (amended): Q3 returns 0 when there are no validated O3 readings; when
it returns an hour h on a non-empty validated set, h < 24 and h's group has a
defined sample deviation that is maximal — comparing variances, equivalent
under the monotone square root — with ties going to the smallest hour; and the
computation RAISES (modelled as `none`) exactly when validated readings exist
but every hour group is a singleton, so every standard deviation is NaN. -/
theorem c7_q3_argmax (ms : List MRow) (instr : List IRow) (code : Option ℤ) :
    (validRows ms instr code MRow.o3 = [] → q3_of ms instr code = some 0) ∧
    (∀ h, validRows ms instr code MRow.o3 ≠ [] → q3_of ms instr code = some h →
      h < 24 ∧ ∃ v, sampleVar (o3At (validRows ms instr code MRow.o3) h) = some v ∧
        ∀ h2 v2, sampleVar (o3At (validRows ms instr code MRow.o3) h2) = some v2 →
          v2 ≤ v ∧ (v2 = v → h ≤ h2)) ∧
    (q3_of ms instr code = none ↔
      validRows ms instr code MRow.o3 ≠ [] ∧
        ∀ h, (o3At (validRows ms instr code MRow.o3) h).length ≤ 1) := by
  rcases hcode : code with _ | c
  · refine ⟨fun _ => rfl, fun h hne _ => absurd rfl hne, ?_⟩
    constructor
    · intro hq3; cases hq3
    · rintro ⟨hne, _⟩; exact absurd rfl hne
  · set R := validRows ms instr (some c) MRow.o3 with hRdef
    by_cases hR : R = []
    · refine ⟨fun _ => by simp [q3_of, ← hRdef, hR], fun h hne _ => absurd hR hne, ?_⟩
      constructor
      · intro hq3
        rw [show q3_of ms instr (some c) = some 0 from by simp [q3_of, ← hRdef, hR]] at hq3
        cases hq3
      · rintro ⟨hne, _⟩; exact absurd hR hne
    · have hq3eq : q3_of ms instr (some c) =
          (maxEntry ((hoursOf R).map (fun h => (h, sampleVar (o3At R h))))).map
            (fun p => p.1) := by
        simp [q3_of, ← hRdef, hR]
      have hpw : ((hoursOf R).map (fun h => (h, sampleVar (o3At R h)))).Pairwise
          (fun a b => a.1 < b.1) := by
        rw [List.pairwise_map]
        exact hoursOf_pairwise R
      refine ⟨fun habs => absurd habs hR, ?_, ?_⟩
      · intro h hne hq3
        rw [hq3eq] at hq3
        rcases Option.map_eq_some'.mp hq3 with ⟨⟨h0, v⟩, hmax, hfst⟩
        cases hfst
        rcases maxEntry_spec _ hpw h0 v hmax with ⟨hmem, hall⟩
        rcases List.mem_map.mp hmem with ⟨h1, hh1, heq1⟩
        have hh0 : h1 = h0 := congrArg Prod.fst heq1
        subst hh0
        have hvar : sampleVar (o3At R h1) = some v := by
          simpa using congrArg Prod.snd heq1
        refine ⟨List.mem_range.mp (List.mem_filter.mp hh1).1, v, hvar, ?_⟩
        intro h2 v2 hvar2
        have hlen2 : ¬ (o3At R h2).length ≤ 1 := by
          intro hle
          rw [(sampleVar_eq_none _).mpr hle] at hvar2
          cases hvar2
        have hmem2 : h2 ∈ R.map hourOf := by
          by_contra hnm
          exact hlen2 (by simp [o3At_eq_nil R h2 hnm])
        exact hall h2 v2 (List.mem_map.mpr ⟨h2, (mem_hoursOf R h2).mpr hmem2, by rw [hvar2]⟩)
      · rw [hq3eq]
        constructor
        · intro hnone
          have hmax : maxEntry ((hoursOf R).map (fun h => (h, sampleVar (o3At R h)))) =
              none := Option.map_eq_none'.mp hnone
          have hall := (maxEntry_eq_none _).mp hmax
          refine ⟨hR, ?_⟩
          intro h
          by_cases hmem : h ∈ R.map hourOf
          · have := hall (h, sampleVar (o3At R h))
              (List.mem_map.mpr ⟨h, (mem_hoursOf R h).mpr hmem, rfl⟩)
            exact (sampleVar_eq_none _).mp this
          · simp [o3At_eq_nil R h hmem]
        · rintro ⟨_, hall⟩
          rw [Option.map_eq_none']
          rw [maxEntry_eq_none]
          rintro p hmem
          rcases List.mem_map.mp hmem with ⟨h1, _, rfl⟩
          exact (sampleVar_eq_none _).mpr (hall h1)

/-- C7 measurement fixture: a single valid O3 reading (station 1, January). -/
def c7m : MRawRow := ⟨.valid tsJan, .num 1, .missing, .missing, .num 5, .missing, .missing, .missing⟩

/-- C7 instrument fixture: the matching status-0 row on the O3 channel 5. -/
def c7i : IRawRow := ⟨some tsJan, .num 1, .num 5, .num 1, .num 0⟩

/-- A pollutant-reference row mapping O3 to channel 5. -/
def pRowO3 : PRow := ⟨"O3", 5, 2, 9, 15⟩

/-- C7 counterexample: with exactly one validated O3 reading, the only hour
group is a singleton, its sample standard deviation is NaN, and
`int(....idxmax())` raises — the run produces no Q3 at all, refuting "for
every input, Q3 is an integer in [0, 23]". -/
theorem c7_counterexample :
    q3_of (preprocess_measurement_data [c7m]) (preprocess_instrument_data [c7i])
      (some 5) = none ∧
    compute_task1 (some [c7m]) (some [c7i]) (some [pRowO3]) = RunResult.raised := by
  constructor <;>
  simp +decide [compute_task1, load_pollutant_mapping, q3_of, o3At, hoursOf, hourOf,
    maxEntry, sampleVar, validRows, mergeValid, instrPairs, preprocess_measurement_data,
    preprocess_instrument_data, dedupFirst, dedupFirst.go, convertMRow, convertIRow,
    Cell.toNum, Cell.isNA, Cell.eqInt, DCell.isNA, DCell.toInstant, c7m, c7i, pRowO3,
    tsJan, Timestamp.hour, List.filter, List.filterMap, List.flatMap, List.range,
    List.range.loop]

/-- Hour-3 timestamp of the C7 variance scenario. -/
def tsH3 : Timestamp := ⟨2023, ⟨0, by norm_num⟩, 1, ⟨3, by norm_num⟩⟩

/-- Hour-5 timestamp of the C7 variance scenario. -/
def tsH5 : Timestamp := ⟨2023, ⟨0, by norm_num⟩, 1, ⟨5, by norm_num⟩⟩

/-- Hour-3 reading 5.0 (low spread). -/
def c7w1 : MRawRow := ⟨.valid tsH3, .num 1, .missing, .missing, .num 5, .missing, .missing, .missing⟩

/-- Hour-3 reading 6.0 (low spread). -/
def c7w2 : MRawRow := ⟨.valid tsH3, .num 1, .missing, .missing, .num 6, .missing, .missing, .missing⟩

/-- Hour-5 reading 0.0 (high spread). -/
def c7w3 : MRawRow := ⟨.valid tsH5, .num 1, .missing, .missing, .num 0, .missing, .missing, .missing⟩

/-- Hour-5 reading 10.0 (high spread). -/
def c7w4 : MRawRow := ⟨.valid tsH5, .num 1, .missing, .missing, .num 10, .missing, .missing, .missing⟩

/-- Status-0 instrument row at hour 3. -/
def c7wi3 : IRawRow := ⟨some tsH3, .num 1, .num 5, .num 1, .num 0⟩

/-- Status-0 instrument row at hour 5. -/
def c7wi5 : IRawRow := ⟨some tsH5, .num 1, .num 5, .num 2, .num 0⟩

/-- C7 satisfiability evidence: with hour 5 spreading strictly more than hour
3, Q3 really computes and picks hour 5. -/
theorem c7_witness :
    q3_of (preprocess_measurement_data [c7w1, c7w2, c7w3, c7w4])
      (preprocess_instrument_data [c7wi3, c7wi5]) (some 5) = some 5 := by
  simp +decide [q3_of, o3At, hoursOf, hourOf, maxEntry, sampleVar, validRows, mergeValid,
    instrPairs, preprocess_measurement_data, preprocess_instrument_data, dedupFirst,
    dedupFirst.go, convertMRow, convertIRow, Cell.toNum, Cell.isNA, Cell.eqInt,
    DCell.isNA, DCell.toInstant, c7w1, c7w2, c7w3, c7w4, c7wi3, c7wi5, tsH3, tsH5,
    Timestamp.hour, List.filter, List.filterMap, List.flatMap, List.range, List.range.loop]
  norm_num [mean, valOf]
